import Mathlib

/-!
Verification of the woovi-leaky-bucket rate limiter (Rust, axum + redis).

The repository has two middleware implementations sharing one algorithm:
`rate_limiter_middleware` in src/lib.rs (wrapped in `redis::transaction`)
and `my_middleware` in src/main.rs (plain GET / SET).  Both keep, per
client, a JSON record `TokenPersistence { tokens: i64, last_updated:
DateTime<Utc> }` in redis and implement an hourly-refill token bucket
with `max_tokens = 10` and `refill_rate_per_hour = 1`.

Timestamps are modelled as `Int` seconds since the epoch.  Rust's `i64`
division (`chrono::TimeDelta::num_hours`) truncates toward zero, which is
`Int.tdiv` in Lean.  Token counts are `i64`, modelled as `Int` (no value
in the program ever approaches the 64-bit bounds).
-/

namespace LeakyBucket

/-- The stored bucket record, from `struct TokenPersistence` (lib.rs 23-27,
main.rs 24-28): an `i64` token count and a UTC timestamp, the timestamp
modelled as seconds since the epoch. -/
structure TokenPersistence where
  tokens : Int
  last_updated : Int
deriving DecidableEq

/-- Hard-coded policy constant `max_tokens = 10` (lib.rs 124, main.rs 101). -/
def max_tokens : Int := 10

/-- Hard-coded policy constant `refill_rate_per_hour = 1` (lib.rs 125,
main.rs 102). -/
def refill_rate_per_hour : Int := 1

/-- `TokenPersistence::new()` (lib.rs 60-67, main.rs 58-65): a fresh bucket
with 10 tokens stamped with the current time, passed here as `t`. -/
def TokenPersistence.fresh (t : Int) : TokenPersistence :=
  { tokens := 10, last_updated := t }

/-- `now.signed_duration_since(last_updated).num_hours()` (lib.rs 127,
main.rs 104): the elapsed whole hours, truncated toward zero exactly as
chrono's `num_hours` (seconds divided by 3600 with Rust `i64` division). -/
def elapsed_hours (now last : Int) : Int :=
  Int.tdiv (now - last) 3600

/-- `(token_model.tokens + elapsed_hours * refill_rate_per_hour).min(max_tokens)`
(lib.rs 129-130, main.rs 106-107). -/
def tokens_available (tm : TokenPersistence) (now : Int) : Int :=
  min (tm.tokens + elapsed_hours now tm.last_updated * refill_rate_per_hour)
    max_tokens

/-- Outcome of one admission decision: deny, or admit and persist the given
new record. -/
inductive Decision where
  | denied
  | admitted (ns : TokenPersistence)
deriving DecidableEq

/-- The shared decision logic of lib.rs 120-144 and main.rs 97-121: if
fewer than one token is available the request is rejected; otherwise one
token is consumed, `(tokens_available - 1).max(0)` tokens remain, and the
record is restamped with `now`. -/
def decide_admission (tm : TokenPersistence) (now : Int) : Decision :=
  if tokens_available tm now < 1 then .denied
  else .admitted { tokens := max (tokens_available tm now - 1) 0, last_updated := now }

/-- One full read-decide-write cycle of `my_middleware` (main.rs 85-128) at
the store level, on the value currently stored under the derived key
(`none` = key absent).  A missing or non-`Token` read falls back to
`TokenPersistence::new()`, stamped `tFresh` (main.rs 90-95).  Result: the
value stored after the cycle, and whether the request was admitted.  On
denial main.rs returns 429 before any `SET` (main.rs 109-114), so the
stored value is untouched; on admission the updated record is `SET`
(main.rs 123-128). -/
def middleware_step (stored : Option TokenPersistence) (now tFresh : Int) :
    Option TokenPersistence × Bool :=
  let token_model := stored.getD (TokenPersistence.fresh tFresh)
  match decide_admission token_model now with
  | .denied => (stored, false)
  | .admitted ns => (some ns, true)

/-- The decision portion of `rate_limiter_middleware`'s transaction closure
(lib.rs 110-144), transcribed independently of `main_decide` for the
refinement comparison: read result defaulted to a fresh record
(lib.rs 113, 115-118), hourly refill with truncating division
(lib.rs 127-130), deny below one token (lib.rs 132-137), otherwise consume
one and restamp (lib.rs 139-144). -/
def lib_decide (stored : Option TokenPersistence) (now tFresh : Int) : Decision :=
  let token_model := match stored with
    | some tp => tp
    | none => TokenPersistence.fresh tFresh
  let eh := Int.tdiv (now - token_model.last_updated) 3600
  let avail := min (token_model.tokens + eh * 1) 10
  if avail < 1 then .denied
  else .admitted { tokens := max (avail - 1) 0, last_updated := now }

/-- The decision portion of `my_middleware` (main.rs 85-121), transcribed
independently of `lib_decide`: read result defaulted to a fresh record
(main.rs 90-95), hourly refill with truncating division (main.rs 104-107),
deny below one token (main.rs 109-114), otherwise consume one and restamp
(main.rs 116-121). -/
def main_decide (stored : Option TokenPersistence) (now tFresh : Int) : Decision :=
  let token_model := match stored with
    | some tp => tp
    | none => TokenPersistence.fresh tFresh
  let eh := Int.tdiv (now - token_model.last_updated) 3600
  let avail := min (token_model.tokens + eh * 1) 10
  if avail < 1 then .denied
  else .admitted { tokens := max (avail - 1) 0, last_updated := now }

/-- Floor of a signed duration in seconds to whole hours, as the spec's
`floor_hours` (spec section 4.3 step 2) reads: a true mathematical floor. -/
def floor_hours (d : Int) : Int := Int.fdiv d 3600

/-- The available-token formula exactly as the spec states it (section 4.3
step 3): `min(max_tokens, old.tokens + elapsed_hours * refill_rate_per_hour)`
with `elapsed_hours = floor_hours(now - old.last_refill)`. -/
def spec_available (tm : TokenPersistence) (now : Int) : Int :=
  min max_tokens
    (tm.tokens + floor_hours (now - tm.last_updated) * refill_rate_per_hour)

/-- Outcome of the `redis::transaction` call as lib.rs 156-164 scrutinises
it: `Ok` on commit, or a `RedisError`.  The only two error sources are the
deny branch of the closure itself — `Err((ClientError, "Too many requests"))`
at lib.rs 133-136 — and a transport or connectivity failure surfaced by the
redis crate (e.g. from the WATCH command). -/
inductive TxOutcome where
  | success
  | errDenied
  | errStore
deriving DecidableEq

/-- Observable middleware response: forward to the downstream handler, or
short-circuit with the given HTTP status and an empty body. -/
inductive MwResponse where
  | forwarded
  | status (code : Nat)
deriving DecidableEq

/-- The response mapping of lib.rs 156-168: `match transaction { Err(e) =>
return 429, _ => {} }` followed by `next.run(request)`.  Every error —
denial and store failure alike — becomes 429 Too Many Requests. -/
def lib_response : TxOutcome → MwResponse
  | .success => .forwarded
  | .errDenied => .status 429
  | .errStore => .status 429

/-! ## Codec

`ToRedisArgs` (lib.rs 51-58, main.rs 49-56) encodes the record with
`serde_json::to_string` and `FromRedisValue` (lib.rs 35-49, main.rs 36-47)
decodes with `serde_json::from_slice(..).unwrap()`.  Byte strings are
modelled as `List Nat`.  serde_json emits the fields in declaration order:
`{"tokens":<i64>,"last_updated":"<RFC3339>"}`.  The `i64` is a signed
decimal; the chrono timestamp is an RFC3339 string, an injective
self-describing rendering of the timestamp that parses back exactly — it
is modelled here as the decimal rendering of the epoch-seconds value,
which has the same structure (quoted, injective, exactly re-parsed). -/

/-- Decimal digits of a natural number, most significant first, as ASCII
bytes — the digit layer shared by serde_json's integer rendering. -/
def natBytes (n : Nat) : List Nat :=
  if h : n < 10 then [48 + n] else natBytes (n / 10) ++ [48 + n % 10]
termination_by n
decreasing_by exact Nat.div_lt_self (by omega) (by omega)

/-- serde_json's signed decimal rendering: a leading `-` (byte 45) for
negative values, then the decimal digits of the magnitude. -/
def intBytes (i : Int) : List Nat :=
  if i < 0 then 45 :: natBytes (-i).toNat else natBytes i.toNat

/-- ASCII bytes of `{"tokens":` (the object opener and first field name
serde_json emits). -/
def jsonPrefix : List Nat := [123, 34, 116, 111, 107, 101, 110, 115, 34, 58]

/-- ASCII bytes of `,"last_updated":"` (field separator, second field name,
and the opening quote of the timestamp string). -/
def jsonMid : List Nat :=
  [44, 34, 108, 97, 115, 116, 95, 117, 112, 100, 97, 116, 101, 100, 34, 58, 34]

/-- ASCII bytes of `"` followed by the closing brace: the end of the
timestamp string and of the object. -/
def jsonSuffix : List Nat := [34, 125]

/-- `serde_json::to_string(self)` for `TokenPersistence` (lib.rs 56,
main.rs 54): the canonical two-field JSON object. -/
def encode (tp : TokenPersistence) : List Nat :=
  jsonPrefix ++ intBytes tp.tokens ++ jsonMid ++ intBytes tp.last_updated ++ jsonSuffix

/-- Whether a byte is an ASCII decimal digit. -/
def isDigit (c : Nat) : Bool := decide (48 ≤ c) && decide (c ≤ 57)

/-- Greedily consume leading digits, folding them into the accumulator;
return the value and the unconsumed remainder. -/
def parseDigitsAux : List Nat → Nat → Nat × List Nat
  | [], acc => (acc, [])
  | c :: cs, acc =>
    if isDigit c then parseDigitsAux cs (acc * 10 + (c - 48))
    else (acc, c :: cs)

/-- Parse a nonempty digit run as a natural number. -/
def parseNat : List Nat → Option (Nat × List Nat)
  | [] => none
  | c :: cs => if isDigit c then some (parseDigitsAux (c :: cs) 0) else none

/-- Parse an optionally `-`-signed decimal integer, serde_json's `i64`
grammar. -/
def parseInt : List Nat → Option (Int × List Nat)
  | [] => none
  | c :: cs =>
    if c = 45 then (parseNat cs).map fun p => (-(p.1 : Int), p.2)
    else (parseNat (c :: cs)).map fun p => ((p.1 : Int), p.2)

/-- Require the input to start with the given literal bytes; return the
remainder. -/
def expectBytes : List Nat → List Nat → Option (List Nat)
  | [], input => some input
  | _ :: _, [] => none
  | p :: ps, c :: cs => if c = p then expectBytes ps cs else none

/-- `serde_json::from_slice::<TokenPersistence>` (lib.rs 42, main.rs 40)
restricted to serde's own canonical output shape: the exact two-field
object `encode` produces, any other byte sequence failing (`none`, serde's
`Err`). -/
def decode (input : List Nat) : Option TokenPersistence := do
  let r1 ← expectBytes jsonPrefix input
  let (tok, r2) ← parseInt r1
  let r3 ← expectBytes jsonMid r2
  let (ts, r4) ← parseInt r3
  let r5 ← expectBytes jsonSuffix r4
  if r5 = [] then some ⟨tok, ts⟩ else none

/-- Bool test that a byte list does not begin with a digit (so a greedy
digit parse stops exactly there). -/
def noDigitStart : List Nat → Bool
  | [] => true
  | c :: _ => !isDigit c

/-- The redis `Value` shapes `from_redis_value` scrutinises (lib.rs 37-47):
a bulk byte string, `Nil`, `Okay`, a nested array, or any other variant
(`otherKind`, the `_` arm). -/
inductive RValue where
  | bulk (bytes : List Nat)
  | nil
  | okay
  | array (vs : List RValue)
  | otherKind

/-- The enum `TokenPersistenceReturn` (lib.rs 29-33, main.rs 30-34). -/
inductive TPReturn where
  | okay
  | nil
  | token (tp : TokenPersistence)

/-- Result of running `from_redis_value`: a value, or a Rust panic
(`crash`) from `.unwrap()` on a serde error or from `unreachable!()`. -/
inductive DecodeOutcome where
  | ok (r : TPReturn)
  | crash

/-- `TokenPersistenceReturn::from_redis_value` (lib.rs 35-49): recurse into
one-element arrays, decode bulk strings with
`serde_json::from_slice(v).unwrap()` — a panic (`crash`) when the bytes are
malformed — map `Nil` and `Okay` through, and `unreachable!()` (also a
panic) on every other variant, one-element arrays aside. -/
def from_redis_value : RValue → DecodeOutcome
  | .array [v] => from_redis_value v
  | .array [] => .crash
  | .array (_ :: _ :: _) => .crash
  | .bulk bs =>
    match decode bs with
    | some tp => .ok (.token tp)
    | none => .crash
  | .nil => .ok .nil
  | .okay => .ok .okay
  | .otherKind => .crash

/-! ## Transaction protocol

lib.rs 109 drives the cycle through redis-rs's `redis::transaction` helper:
WATCH the key, build an atomic pipeline, run the closure, and loop —
retrying only when the closure returns `Ok(None)` (the conflict signal),
returning on `Ok(Some(_))` or `Err(_)`. -/

/-- The single error value the closure itself raises: `(ClientError, "Too
many requests")` (lib.rs 133-136). -/
inductive RedisErr where
  | clientErr
deriving DecidableEq

/-- The control-flow result of the transaction closure (lib.rs 110-151) as
a function of the pre-state it read (after the `unwrap_or`/match fallback
of lib.rs 113-118): `Err` on the deny branch, `Ok(Some(()))` after staging
the SET — `Ok(None)`, the only retry trigger, is structurally never
returned. -/
def closure_result (tm : TokenPersistence) (now : Int) : Except RedisErr (Option Unit) :=
  match decide_admission tm now with
  | .denied => .error .clientErr
  | .admitted _ => .ok (some ())

/-- Whether a closure result is `Ok(None)`, the one value that makes
`redis::transaction` run another watch/read/compute/commit cycle. -/
def is_retry_signal : Except RedisErr (Option Unit) → Bool
  | .ok none => true
  | _ => false

/-- The retry loop of redis-rs's `redis::transaction`: run the closure,
return its `Err` or `Ok(Some)` outcome, loop again only on `Ok(None)`.
The real loop is unbounded; `fuel` only totalises the model (`none` =
still looping after `fuel` cycles). -/
def redis_transaction_loop (fuel : Nat) (func : Unit → Except RedisErr (Option Unit)) :
    Option (Except RedisErr Unit) :=
  match fuel with
  | 0 => none
  | f + 1 =>
    match func () with
    | .error e => some (.error e)
    | .ok (some _) => some (.ok ())
    | .ok none => redis_transaction_loop f func

/-! ## Two concurrent attempts

One admission cycle of lib.rs touches the store in two atomic steps.  The
closure queries its pipeline twice: the first query (lib.rs 110-113)
executes MULTI GET EXEC — an atomic read whose EXEC *clears the WATCH*
taken by `redis::transaction` (Redis discards all watches at EXEC, whether
the transaction aborts or not); the second query (lib.rs 146-149) executes
MULTI GET SET EXEC with no watch left, so the staged write commits
unconditionally.  An attempt from a second process/connection can
therefore interleave between the two steps. -/

/-- In-flight state of one attempt: the pre-state its first atomic step
read (if taken yet), and whether it finished and with which outcome. -/
structure AttemptLocal where
  observed : Option TokenPersistence
  done : Bool
  wasAdmitted : Bool
deriving DecidableEq

/-- Run the next atomic store step of one attempt at time `now`: first the
atomic read (MULTI GET EXEC, consuming the watch), then the
decide-and-write step — an unguarded atomic MULTI GET SET EXEC on
admission (lib.rs 139-151), or finishing without a write on denial
(lib.rs 132-137). -/
def attempt_step (store : TokenPersistence) (l : AttemptLocal) (now : Int) :
    TokenPersistence × AttemptLocal :=
  match l.observed with
  | none => (store, { l with observed := some store })
  | some pre =>
    if l.done then (store, l)
    else
      match decide_admission pre now with
      | .denied => (store, { l with done := true, wasAdmitted := false })
      | .admitted ns => (ns, { l with done := true, wasAdmitted := true })

/-- Shared store plus the local state of two concurrent attempts. -/
structure TwoAttempts where
  store : TokenPersistence
  a : AttemptLocal
  b : AttemptLocal
deriving DecidableEq

/-- Let attempt `a` (pick = false) or `b` (pick = true) take its next
atomic store step. -/
def step_one (now : Int) (s : TwoAttempts) (pick : Bool) : TwoAttempts :=
  if pick then
    let r := attempt_step s.store s.b now
    { s with store := r.1, b := r.2 }
  else
    let r := attempt_step s.store s.a now
    { s with store := r.1, a := r.2 }

/-- Run two concurrent attempts against initial stored state `s0`, both at
time `now`, interleaved according to `sched`. -/
def run2 (s0 : TokenPersistence) (now : Int) (sched : List Bool) : TwoAttempts :=
  sched.foldl (step_one now) ⟨s0, ⟨none, false, false⟩, ⟨none, false, false⟩⟩

/-- How many of the two attempts ended `Admitted`. -/
def admitted_count (s : TwoAttempts) : Nat :=
  (if s.a.wasAdmitted then 1 else 0) + (if s.b.wasAdmitted then 1 else 0)

/-- C7: for `now` at or after the stored timestamp, the code's available
count equals the spec's `min(max_tokens, old.tokens + floor_hours(now -
last) * refill_rate_per_hour)` formula, and an admitted write persists
`{tokens: max(0, available - 1), last_refill: now}`. -/
theorem c7_refill_formula (tm : TokenPersistence) (now : Int)
    (h : tm.last_updated ≤ now) :
    tokens_available tm now = spec_available tm now ∧
    ∀ ns, decide_admission tm now = .admitted ns →
      ns = { tokens := max 0 (tokens_available tm now - 1), last_updated := now } := by
  constructor
  · simp only [tokens_available, spec_available, elapsed_hours, floor_hours,
      max_tokens, refill_rate_per_hour]
    rw [Int.fdiv_eq_tdiv (by omega) (by norm_num), min_comm]
  · intro ns hns
    unfold decide_admission at hns
    split at hns
    · simp at hns
    · injection hns with h2
      subst h2
      simp [max_comm]

/-- Witness for C7 at a concrete input: state `{tokens: 5, last_updated: 0}`
queried one hour later. -/
theorem c7_refill_formula_witness :
    tokens_available ⟨5, 0⟩ 3600 = spec_available ⟨5, 0⟩ 3600 :=
  (c7_refill_formula ⟨5, 0⟩ 3600 (by decide)).1

/-- C8: every record the system writes (the state carried by an `admitted`
decision) has its token count within `0 ≤ tokens ≤ max_tokens`, whatever
the pre-state's token count and the elapsed time were. -/
theorem c8_written_tokens_in_bounds :
    ∀ (tm : TokenPersistence) (now : Int) (ns : TokenPersistence),
      decide_admission tm now = .admitted ns →
      0 ≤ ns.tokens ∧ ns.tokens ≤ max_tokens := by
  intro tm now ns h
  unfold decide_admission at h
  split at h
  · simp at h
  · injection h with h2
    subst h2
    have hmin : tokens_available tm now ≤ max_tokens := by
      unfold tokens_available
      exact min_le_right _ _
    unfold max_tokens at hmin ⊢
    dsimp only
    omega

/-- Witness for C8: a fresh full bucket admits and writes 9 tokens, within
bounds. -/
theorem c8_written_tokens_in_bounds_witness :
    0 ≤ (⟨9, 0⟩ : TokenPersistence).tokens ∧
    (⟨9, 0⟩ : TokenPersistence).tokens ≤ max_tokens :=
  c8_written_tokens_in_bounds ⟨10, 0⟩ 0 ⟨9, 0⟩ (by decide)

/-- C10: the transactional middleware of lib.rs and the plain middleware of
main.rs compute the same admission decision and, on admission, the same new
record, for every stored pre-state (present or absent), time, and fresh
stamp. -/
theorem c10_lib_main_same_decision :
    ∀ (stored : Option TokenPersistence) (now tFresh : Int),
      lib_decide stored now tFresh = main_decide stored now tFresh :=
  fun _ _ _ => rfl

/-- C2 (code evaluation at the failing input): the code does not clamp
`elapsed_hours` at 0 under clock skew.  With stored state `{tokens: 5,
last_updated: 7200}` and `now = 0` (clock 2 hours behind the stored stamp),
`num_hours` evaluates to `-2` and the available count drops to 3, below the
stored 5 — negative refill, which the claim says cannot happen. -/
theorem c2_no_clock_skew_clamp :
    elapsed_hours 0 7200 = -2 ∧
    tokens_available ⟨5, 7200⟩ 0 = 3 ∧
    tokens_available ⟨5, 7200⟩ 0 < (⟨5, 7200⟩ : TokenPersistence).tokens := by
  refine ⟨by decide, by decide, by decide⟩

/-- C6: a denied cycle performs no write — the stored record (both fields)
is exactly what it was — and any retry whose elapsed-hour computation
agrees (in particular any retry within the same hour) sees the same
available count as the denied attempt. -/
theorem c6_denied_leaves_store_unchanged :
    ∀ (stored : Option TokenPersistence) (now tFresh : Int),
      (middleware_step stored now tFresh).2 = false →
      (middleware_step stored now tFresh).1 = stored ∧
      ∀ (tm : TokenPersistence) (now2 : Int), stored = some tm →
        elapsed_hours now2 tm.last_updated = elapsed_hours now tm.last_updated →
        tokens_available tm now2 = tokens_available tm now := by
  intro stored now tF h
  refine ⟨?_, ?_⟩
  · cases hd : decide_admission (stored.getD (TokenPersistence.fresh tF)) now with
    | denied => simp [middleware_step, hd]
    | admitted ns =>
      exfalso
      simp [middleware_step, hd] at h
  · intro tm now2 hst hsame
    unfold tokens_available
    rw [hsame]

/-- Witness for C6: an empty bucket at time 0 is denied, the store is
untouched, and a retry half an hour later computes the same availability. -/
theorem c6_denied_leaves_store_unchanged_witness :
    (middleware_step (some ⟨0, 0⟩) 0 0).1 = some (⟨0, 0⟩ : TokenPersistence) ∧
    tokens_available ⟨0, 0⟩ 1800 = tokens_available ⟨0, 0⟩ 0 :=
  ⟨(c6_denied_leaves_store_unchanged (some ⟨0, 0⟩) 0 0 (by decide)).1,
   (c6_denied_leaves_store_unchanged (some ⟨0, 0⟩) 0 0 (by decide)).2
     ⟨0, 0⟩ 1800 rfl (by decide)⟩

/-- C4 (counterexample): a store transport failure and a legitimate
rate-limit denial produce the same observable response, refuting the claim
that they are always distinct. -/
theorem c4_store_error_indistinct :
    lib_response .errStore = lib_response .errDenied := rfl

/-- C4 (amended): lib.rs maps every transaction error — store transport
failures included — to 429 Too Many Requests with an empty body (fail
closed); no distinct 5xx response exists, and only success forwards
downstream. -/
theorem c4_all_errors_as_429 :
    lib_response .errStore = .status 429 ∧
    lib_response .errDenied = .status 429 ∧
    lib_response .success = .forwarded :=
  ⟨rfl, rfl, rfl⟩

/-- Consuming a literal prefix succeeds and leaves exactly the rest. -/
theorem expectBytes_append (p rest : List Nat) :
    expectBytes p (p ++ rest) = some rest := by
  induction p with
  | nil => rfl
  | cons c cs ih => simp [expectBytes, ih]

/-- Digit bytes of `n` fold into the accumulator positionally. -/
theorem parseDigitsAux_append (n : Nat) :
    ∀ (rest : List Nat) (acc : Nat),
      parseDigitsAux (natBytes n ++ rest) acc
        = parseDigitsAux rest (acc * 10 ^ (natBytes n).length + n) := by
  induction n using Nat.strong_induction_on with
  | _ n ih =>
    intro rest acc
    by_cases h : n < 10
    · rw [natBytes, dif_pos h]
      have hd : isDigit (48 + n) = true := by simp [isDigit]; omega
      simp only [List.singleton_append, parseDigitsAux, hd, if_true,
        List.length_singleton, pow_one]
      congr 1
      omega
    · rw [natBytes, dif_neg h]
      rw [List.append_assoc, ih (n / 10) (Nat.div_lt_self (by omega) (by omega))]
      have hd : isDigit (48 + n % 10) = true := by
        have : n % 10 < 10 := Nat.mod_lt _ (by omega)
        simp [isDigit]; omega
      simp only [List.singleton_append, parseDigitsAux, hd, if_true,
        List.length_append, List.length_singleton]
      congr 1
      have hmod : 48 + n % 10 - 48 = n % 10 := by omega
      rw [hmod]
      calc (acc * 10 ^ (natBytes (n / 10)).length + n / 10) * 10 + n % 10
          = acc * (10 ^ (natBytes (n / 10)).length * 10) + (10 * (n / 10) + n % 10) := by
            ring
        _ = acc * 10 ^ ((natBytes (n / 10)).length + 1) + n := by
            rw [Nat.div_add_mod, pow_succ]

/-- A greedy digit parse stops immediately on a non-digit (or empty)
input. -/
theorem parseDigitsAux_stop (rest : List Nat) (acc : Nat)
    (h : noDigitStart rest = true) : parseDigitsAux rest acc = (acc, rest) := by
  cases rest with
  | nil => rfl
  | cons c cs =>
    simp only [noDigitStart, Bool.not_eq_true'] at h
    simp [parseDigitsAux, h]

/-- The decimal rendering of a natural number starts with a digit. -/
theorem natBytes_head_digit (n : Nat) :
    ∃ c cs, natBytes n = c :: cs ∧ isDigit c = true := by
  induction n using Nat.strong_induction_on with
  | _ n ih =>
    by_cases h : n < 10
    · refine ⟨48 + n, [], by rw [natBytes, dif_pos h], ?_⟩
      simp [isDigit]; omega
    · obtain ⟨c, cs, hcons, hdig⟩ := ih (n / 10) (Nat.div_lt_self (by omega) (by omega))
      exact ⟨c, cs ++ [48 + n % 10], by rw [natBytes, dif_neg h, hcons]; rfl, hdig⟩

/-- Parsing the decimal rendering of `n` followed by a non-digit tail
recovers `n` and the tail. -/
theorem parseNat_natBytes (n : Nat) (rest : List Nat)
    (h : noDigitStart rest = true) :
    parseNat (natBytes n ++ rest) = some (n, rest) := by
  obtain ⟨c, cs, hcons, hdig⟩ := natBytes_head_digit n
  rw [hcons, List.cons_append]
  simp only [parseNat, hdig, if_true]
  rw [← List.cons_append, ← hcons, parseDigitsAux_append, parseDigitsAux_stop rest _ h]
  simp

/-- Parsing the signed decimal rendering of `i` followed by a tail that
starts with neither a digit nor `-` recovers `i` and the tail. -/
theorem parseInt_intBytes (i : Int) (rest : List Nat)
    (h : noDigitStart rest = true) :
    parseInt (intBytes i ++ rest) = some (i, rest) := by
  unfold intBytes
  split
  · rename_i hneg
    rw [List.cons_append]
    simp only [parseInt, if_pos rfl]
    rw [parseNat_natBytes _ _ h]
    simp only [Option.map_some']
    have : ((-i).toNat : Int) = -i := Int.toNat_of_nonneg (by omega)
    rw [this]
    simp
  · rename_i hpos
    obtain ⟨c, cs, hcons, hdig⟩ := natBytes_head_digit i.toNat
    have hc45 : ¬ c = 45 := by
      simp only [isDigit, Bool.and_eq_true, decide_eq_true_eq] at hdig
      omega
    rw [hcons, List.cons_append]
    simp only [parseInt, if_neg hc45]
    rw [← List.cons_append, ← hcons, parseNat_natBytes _ _ h]
    simp only [Option.map_some']
    rw [Int.toNat_of_nonneg (by omega)]

/-- C9: the codec round-trips exactly — decoding the encoding of any
record (any token count, any timestamp) reconstructs both fields. -/
theorem c9_codec_round_trip (tp : TokenPersistence) :
    decode (encode tp) = some tp := by
  unfold encode decode
  simp only [List.append_assoc]
  rw [expectBytes_append]
  simp only [Option.bind_eq_bind, Option.some_bind]
  rw [parseInt_intBytes tp.tokens
    (jsonMid ++ (intBytes tp.last_updated ++ jsonSuffix)) (by rfl)]
  simp only [Option.some_bind]
  rw [expectBytes_append]
  simp only [Option.some_bind]
  rw [parseInt_intBytes tp.last_updated jsonSuffix (by rfl)]
  simp only [Option.some_bind]
  have : expectBytes jsonSuffix jsonSuffix = some [] := by
    have := expectBytes_append jsonSuffix []
    simpa using this
  rw [this]
  simp

/-- C5 (code evaluation at the failing input): decoding the malformed
stored bytes `"notjson"` does not signal a recoverable decode error — it
panics (`serde_json::from_slice(v).unwrap()`), crashing the request,
instead of treating the record as absent. -/
theorem c5_malformed_bytes_crash :
    from_redis_value (.bulk [110, 111, 116, 106, 115, 111, 110]) = .crash := rfl

/-- C3 (code evaluation): the transaction closure never returns
`Ok(None)`, the only value that makes `redis::transaction` retry, so the
cycle always finishes in its first iteration — there is no 3-to-5-attempt
retry bound and no retries-exhausted `Denied` path. -/
theorem c3_no_bounded_retry :
    ∀ (tm : TokenPersistence) (now : Int) (fuel : Nat), 1 ≤ fuel →
      is_retry_signal (closure_result tm now) = false ∧
      redis_transaction_loop fuel (fun _ => closure_result tm now)
        = redis_transaction_loop 1 (fun _ => closure_result tm now) := by
  intro tm now fuel hf
  obtain ⟨f, rfl⟩ : ∃ f, fuel = f + 1 := ⟨fuel - 1, by omega⟩
  cases hd : decide_admission tm now with
  | denied =>
    constructor <;>
      simp [closure_result, hd, is_retry_signal, redis_transaction_loop]
  | admitted ns =>
    constructor <;>
      simp [closure_result, hd, is_retry_signal, redis_transaction_loop]

/-- Witness for C3: an empty bucket at time 0, five units of fuel — the
loop's outcome is already decided in its first cycle. -/
theorem c3_no_bounded_retry_witness :
    is_retry_signal (closure_result ⟨0, 0⟩ 0) = false :=
  (c3_no_bounded_retry ⟨0, 0⟩ 0 5 (by decide)).1

/-- C1 (code evaluation at the failing input): two concurrent attempts on
one key holding a single token, scheduled read-read-write-write (possible
because the watch is consumed by the closure's first pipeline execution,
leaving the write unguarded), are BOTH admitted: 2 admissions against an
available count of 1 — a double spend the claim rules out. -/
theorem c1_double_spend :
    admitted_count (run2 ⟨1, 0⟩ 0 [false, true, false, true]) = 2 ∧
    tokens_available ⟨1, 0⟩ 0 = 1 ∧
    tokens_available ⟨1, 0⟩ 0 < 2 := by
  refine ⟨by decide, by decide, by decide⟩

end LeakyBucket
